import Mathlib

/-!
Shallow embedding of the invtrak synchronization agent (Go sources:
`main.go`, `symbols.go`, and the two unnamed revision files).  Buckets of
the embedded key-value store are modelled as association lists with
replace-on-equal-key `Put` semantics; a whole store is a function from
bucket name to an optional bucket (`none` = the bucket does not exist).
JSON marshalling/unmarshalling of domain records is the identity in the
model (the spec lists JSON encoding as an external collaborator), and the
HTTP transport is a function parameter returning either a body or an
error, mirroring `doReq`.
-/

namespace Invtrak

/-- The Go struct `authToken` (`main.go`, fields access_token .. api_server). -/
structure authToken where
  AccessToken : String
  TokenType : String
  ExpiresIn : Int
  RefreshToken : String
  APIServer : String
deriving DecidableEq

/-- The Go struct `account` (`main.go`). -/
structure account where
  type_ : String
  Number : String
  Status : String
  IsPrimary : Bool
  IsBilling : Bool
  ClientAccountType : String
deriving DecidableEq

/-- The Go struct `Activity`.  The `ID` field exists only in the
sequence-keyed revision (part_001); the date-keyed revision of `main.go`
never touches it.  Go `float64` amounts are carried as exact rationals:
the program performs no arithmetic on them, they only pass through
storage.  The Go field `Type` is rendered `type_`. -/
structure Activity where
  ID : Int
  TradeDate : String
  TransactionDate : String
  SettlementDate : String
  Action : String
  Symbol : String
  SymbolID : Int
  Description : String
  Currency : String
  Quantity : Int
  Price : ℚ
  GrossAmount : ℚ
  Commission : ℚ
  NetAmount : ℚ
  type_ : String
deriving DecidableEq

/-- Copy of an `Activity` with the `ID` field replaced, as done by
`activity.ID = int(seq)` in the sequence-keyed `saveActivities`. -/
def withID (a : Activity) (s : Nat) : Activity :=
  Activity.mk (Int.ofNat s) a.TradeDate a.TransactionDate a.SettlementDate
    a.Action a.Symbol a.SymbolID a.Description a.Currency a.Quantity
    a.Price a.GrossAmount a.Commission a.NetAmount a.type_

/-- Bolt `bucket.Put`: replace the value at an existing key, else append.
The bucket is an association list with at most one entry per key. -/
def assocPut {κ α : Type} [DecidableEq κ] (k : κ) (v : α) :
    List (κ × α) → List (κ × α)
  | [] => [(k, v)]
  | (k₂, v₂) :: rest =>
    if k = k₂ then (k, v) :: rest else (k₂, v₂) :: assocPut k v rest

/-- Bolt `bucket.Get` / Go map read: first value stored at the key. -/
def mapLookup {κ α : Type} [DecidableEq κ] (k : κ) :
    List (κ × α) → Option α
  | [] => none
  | (k₂, v₂) :: rest => if k = k₂ then some v₂ else mapLookup k rest

/-- `fmt.Sprintf("ACTIVITIES-%s", accountID)` — the per-account bucket name. -/
def bkName (accountID : String) : String := "ACTIVITIES-" ++ accountID

/-- Store shape for the date-keyed revision: bucket keys are trade dates. -/
abbrev StoreMain := String → Option (List (String × Activity))

/-- Store shape for the sequence-keyed revision: bucket keys are the
8-byte big-endian encodings of the bolt sequence counter (`itob`);
big-endian byte order on `uint64` agrees with numeric order, so keys are
modelled as `Nat`. -/
abbrev StoreP1 := String → Option (List (Nat × Activity))

/-- The store in which exactly one activities bucket (for `accountID`)
exists and holds `vals`. -/
def storeWithP1 (accountID : String) (vals : List (Nat × Activity)) : StoreP1 :=
  Function.update (fun _ => none) (bkName accountID) (some vals)

/-- A store with no activities bucket at all. -/
def emptyStoreMain : StoreMain := fun _ => none

/-- `saveActivities` of `main.go` (lines 399-434): create the bucket if
absent, then `Put` every decoded activity at key `activity.TradeDate`. -/
def saveActivitiesMain (acts : List Activity) (store : StoreMain)
    (accountID : String) : StoreMain :=
  Function.update store (bkName accountID)
    (some (acts.foldl (fun bk a => assocPut a.TradeDate a bk)
      ((store (bkName accountID)).getD [])))

/-- One bucket of the sequence-keyed revision: bolt's per-bucket sequence
counter together with the entries. -/
structure SeqBucket where
  seq : Nat
  entries : List (Nat × Activity)
deriving DecidableEq

/-- `saveActivities` of part_001 (lines 197-237): for every decoded
activity, take `NextSequence` (increment then read), set `activity.ID`,
and `Put` at key `itob(activity.ID)`. -/
def saveActivitiesSeqBucket (acts : List Activity) (bk : SeqBucket) : SeqBucket :=
  acts.foldl
    (fun b a =>
      SeqBucket.mk (b.seq + 1)
        (assocPut (b.seq + 1) (withID a (b.seq + 1)) b.entries))
    bk

/-- `loadActivities` of `main.go` (lines 436-465): error when the bucket
does not exist, otherwise every stored value in iteration order. -/
def loadActivitiesMain (store : StoreMain) (accountID : String) :
    Except String (List Activity) :=
  match store (bkName accountID) with
  | none => Except.error
      ("could not load activities, couldn't get " ++ bkName accountID ++ " bucket")
  | some bk => Except.ok (bk.map Prod.snd)

/-- `loadActivities` of part_001 (lines 239-270): error when the bucket
does not exist, otherwise the stored values kept by the filter
`tradeType == "all" || tradeType == act.Type`. -/
def loadActivitiesP1 (store : StoreP1) (accountID tradeType : String) :
    Except String (List Activity) :=
  match store (bkName accountID) with
  | none => Except.error
      ("could not load activities, couldn't get " ++ bkName accountID ++ " bucket")
  | some bk => Except.ok
      ((bk.map Prod.snd).filter
        (fun a => tradeType == "all" || tradeType == a.type_))

/-- `loadAllHistoricalSymbols` of part_001 (lines 272-284): load the
"Trades" activities and fold them into a symbol → symbolID map
(`symbols[trade.Symbol] = trade.SymbolID`, last write wins). -/
def loadAllHistoricalSymbols (store : StoreP1) (accountID : String) :
    Except String (List (String × Int)) :=
  match loadActivitiesP1 store accountID "Trades" with
  | Except.error e => Except.error e
  | Except.ok acts =>
      Except.ok (acts.foldl (fun m t => assocPut t.Symbol t.SymbolID m) [])

/-- The ACCOUNTS bucket, keyed by account number. -/
abbrev AccountsBucket := String → Option account

/-- `saveAccounts` (`main.go` lines 293-319): `Put` every account of the
upstream response at key `account.Number`. -/
def saveAccounts (accs : List account) (bucket : AccountsBucket) :
    AccountsBucket :=
  accs.foldl (fun b a => Function.update b a.Number (some a)) bucket

/-- Failure kinds of `requestToken`, mirroring its three `fmt.Errorf`
branches: transport/status failure from `doReq`, JSON decode failure,
and `saveToken` failure. -/
inductive TokenErr
  | network : String → TokenErr
  | parse : String → TokenErr
  | save : String → TokenErr
deriving DecidableEq

/-- `requestToken` (`main.go` lines 249-272).  `net` is `doReq` applied to
the token URL built from the refresh token; `parseToken` is the JSON
decode; `saveRes` is the outcome of the `saveToken` transaction (`none` =
committed, `some e` = failed and rolled back).  Returns the call result,
the ROOT/TOKEN entry after the call, and the list of refresh tokens sent
over the network (the trace of exchanges). -/
def requestTokenRun (refreshTokenStr : String)
    (net : String → Except String String)
    (parseToken : String → Except String authToken)
    (saveRes : Option String) (stored : Option authToken) :
    Except TokenErr authToken × Option authToken × List String :=
  match net refreshTokenStr with
  | Except.error e =>
      (Except.error (TokenErr.network ("error requesting token, " ++ e)),
        stored, [refreshTokenStr])
  | Except.ok body =>
    match parseToken body with
    | Except.error e =>
        (Except.error (TokenErr.parse ("error parsing JSON: " ++ e)),
          stored, [refreshTokenStr])
    | Except.ok t =>
      match saveRes with
      | none => (Except.ok t, some t, [refreshTokenStr])
      | some e =>
          (Except.error (TokenErr.save ("error saving token: " ++ e ++ "n")),
            stored, [refreshTokenStr])

/-- Failure kinds of `initToken`: the missing-seed configuration error,
or a propagated `requestToken` failure. -/
inductive InitErr
  | config : String → InitErr
  | tok : TokenErr → InitErr
deriving DecidableEq

/-- `initToken` (`main.go` lines 146-165).  `loadRes` is the outcome of
`loadToken` (absent key and decode failure both surface as errors);
`envSeed` is `os.LookupEnv("REFRESH_TOKEN")`. -/
def initTokenRun (loadRes : Except String authToken) (envSeed : Option String)
    (net : String → Except String String)
    (parseToken : String → Except String authToken)
    (saveRes : Option String) (stored : Option authToken) :
    Except InitErr authToken × Option authToken × List String :=
  match loadRes with
  | Except.error _ =>
    match envSeed with
    | none =>
        (Except.error
          (InitErr.config "no token saved in DB, and no REFRESH_TOKEN env var set"),
          stored, [])
    | some seed =>
      let r := requestTokenRun seed net parseToken saveRes stored
      (r.1.mapError InitErr.tok, r.2.1, r.2.2)
  | Except.ok t =>
    let r := requestTokenRun t.RefreshToken net parseToken saveRes stored
    (r.1.mapError InitErr.tok, r.2.1, r.2.2)

/-- The window loop of `requestActivities`: windows are tried in order
`i, i+1, ...` (`outcome j` is the combined result of `doReq` +
`saveActivities` for window `j`); the first failure returns immediately.
The second component records which windows were attempted. -/
def windowLoop (outcome : Nat → Except String Unit) :
    Nat → Nat → Except String Unit × List Nat
  | _, 0 => (Except.ok (), [])
  | i, n + 1 =>
    match outcome i with
    | Except.error e => (Except.error e, [i])
    | Except.ok () =>
      let r := windowLoop outcome (i + 1) n
      (r.1, i :: r.2)

/-- `refreshAllActivities` (`main.go` lines 350-365): sync each loaded
account in order, returning at the first failure.  The second component
records which accounts were attempted. -/
def refreshAllRun (sync : String → Except String Unit) :
    List account → Except String Unit × List String
  | [] => (Except.ok (), [])
  | a :: rest =>
    match sync a.Number with
    | Except.error e => (Except.error e, [a.Number])
    | Except.ok () =>
      let r := refreshAllRun sync rest
      (r.1, a.Number :: r.2)

/-- `main.go` window count: `days := (365 * 2.25) / 30` (exact in float64)
followed by the loop bound `i <= int(days)`, i.e. `int(days) + 1`
iterations. -/
def numRequestsMain : Nat := Int.toNat ⌊((365 : ℚ) * (9 / 4)) / 30⌋ + 1

/-- part_001 window count: `days := (365 * 2.5) / 30`, loop bound
`i <= int(days)`. -/
def numRequestsP1 : Nat := Int.toNat ⌊((365 : ℚ) * (5 / 2)) / 30⌋ + 1

/-- The `i`-th requested window as day offsets from `now` (`now` = 0):
`startDate = now - W - step*i`, `endDate = now - step*i`.  `main.go` uses
`step = W = 30`; part_001 uses `step = 31` with `W = 30`. -/
def windowOf (W step : ℚ) (i : Nat) : ℚ × ℚ :=
  (-W - step * i, -(step * i))

/-- The full sequence of windows requested by one run. -/
def requestWindows (W step : ℚ) (n : Nat) : List (ℚ × ℚ) :=
  (List.range n).map (windowOf W step)

/-- Windows of a `main.go` run. -/
def mainWindows : List (ℚ × ℚ) := requestWindows 30 30 numRequestsMain

/-- Windows of a part_001 run. -/
def p1Windows : List (ℚ × ℚ) := requestWindows 30 31 numRequestsP1

/-- A concrete trade activity (symbol AAA). -/
def actA : Activity :=
  Activity.mk 0 "2017-03-01" "2017-03-03" "2017-03-03" "Buy" "AAA" 11
    "bought AAA" "CAD" 10 1 10 0 (-10) "Trades"

/-- A second trade on the same trade date (symbol BBB). -/
def actB : Activity :=
  Activity.mk 0 "2017-03-01" "2017-03-03" "2017-03-03" "Buy" "BBB" 22
    "bought BBB" "CAD" 5 2 10 0 (-10) "Trades"

/-- A concrete token for witnesses. -/
def tok0 : authToken := authToken.mk "acc0" "Bearer" 1800 "R1" "https://api.example/"

/-- A concrete account (number A). -/
def accA : account := account.mk "Margin" "A" "Active" true false "Individual"

/-- A concrete account (number B). -/
def accB : account := account.mk "TFSA" "B" "Active" false false "Individual"

/-- A concrete account (number C). -/
def accC : account := account.mk "RRSP" "C" "Active" false true "Individual"

/-- Every call of `requestToken` sends exactly one exchange request,
carrying the refresh token it was given. -/
lemma requestTokenRun_calls (rt : String) (net : String → Except String String)
    (parseToken : String → Except String authToken)
    (saveRes : Option String) (stored : Option authToken) :
    (requestTokenRun rt net parseToken saveRes stored).2.2 = [rt] := by
  cases hn : net rt with
  | error e => simp [requestTokenRun, hn]
  | ok body =>
    cases hp : parseToken body with
    | error e => simp [requestTokenRun, hn, hp]
    | ok t => cases saveRes <;> simp [requestTokenRun, hn, hp]

/-- If every window succeeds, the loop attempts exactly `n` windows. -/
lemma windowLoop_allOk_len (o : Nat → Except String Unit)
    (h : ∀ i, o i = Except.ok ()) :
    ∀ n i, (windowLoop o i n).2.length = n := by
  intro n
  induction n with
  | zero => intro i; simp [windowLoop]
  | succ m ih => intro i; simp [windowLoop, h i, ih]

/-- If windows `i, ..., i+j-1` succeed and window `i+j` fails, the loop
stops there: result is the error and exactly windows `i..i+j` were tried. -/
lemma windowLoop_firstFail (o : Nat → Except String Unit) (e : String) :
    ∀ (j i n : Nat), j < n → (∀ k, k < j → o (i + k) = Except.ok ()) →
      o (i + j) = Except.error e →
      windowLoop o i n = (Except.error e, List.range' i (j + 1) 1) := by
  intro j
  induction j with
  | zero =>
    intro i n hj h0 hoj
    obtain ⟨m, rfl⟩ : ∃ m, n = m + 1 := ⟨n - 1, by omega⟩
    have hi : o i = Except.error e := by simpa using hoj
    simp [windowLoop, hi, List.range']
  | succ j ih =>
    intro i n hj h0 hoj
    obtain ⟨m, rfl⟩ : ∃ m, n = m + 1 := ⟨n - 1, by omega⟩
    have hi : o i = Except.ok () := by simpa using h0 0 (by omega)
    have hshift : ∀ k, k < j → o ((i + 1) + k) = Except.ok () := by
      intro k hk
      have hidx : (i + 1) + k = i + (k + 1) := by omega
      rw [hidx]
      exact h0 (k + 1) (by omega)
    have hfail : o ((i + 1) + j) = Except.error e := by
      have hidx : (i + 1) + j = i + (j + 1) := by omega
      rw [hidx]; exact hoj
    have hrec := ih (i + 1) m (by omega) hshift hfail
    simp [windowLoop, hi, hrec, List.range'_succ]

/-- If syncing each account of `pre` succeeds and syncing `bad` fails,
the all-accounts loop attempts exactly `pre ++ [bad]` and returns the
error, never reaching `post`. -/
lemma refreshAllRun_firstFail (sync : String → Except String Unit)
    (bad : account) (post : List account) (e : String)
    (hbad : sync bad.Number = Except.error e) :
    ∀ pre : List account, (∀ a ∈ pre, sync a.Number = Except.ok ()) →
      refreshAllRun sync (pre ++ bad :: post)
        = (Except.error e, pre.map account.Number ++ [bad.Number]) := by
  intro pre
  induction pre with
  | nil => intro _; simp [refreshAllRun, hbad]
  | cons a rest ih =>
    intro hpre
    have ha : sync a.Number = Except.ok () := hpre a (by simp)
    have hr := ih (fun x hx => hpre x (by simp [hx]))
    simp [refreshAllRun, ha, hr]

/-- Claim C4: a successful `requestToken` has already persisted the fresh
token to ROOT/TOKEN when it returns; and a persistence failure after a
successful exchange+parse surfaces as a `save` error, a constructor
distinct from the network and parse failures. -/
theorem C4_requestToken_persists (rt body es : String)
    (net : String → Except String String)
    (parseToken : String → Except String authToken) (t : authToken)
    (stored : Option authToken) :
    (∀ (saveRes : Option String) (u : authToken),
      (requestTokenRun rt net parseToken saveRes stored).1 = Except.ok u →
      (requestTokenRun rt net parseToken saveRes stored).2.1 = some u) ∧
    (net rt = Except.ok body → parseToken body = Except.ok t →
      requestTokenRun rt net parseToken (some es) stored
        = (Except.error (TokenErr.save ("error saving token: " ++ es ++ "n")),
            stored, [rt])) ∧
    (∀ s₁ s₂ : String,
      TokenErr.save s₁ ≠ TokenErr.network s₂ ∧ TokenErr.save s₁ ≠ TokenErr.parse s₂) := by
  refine ⟨?_, ?_, ?_⟩
  · intro saveRes u hok
    cases hn : net rt with
    | error e => rw [requestTokenRun] at hok ⊢; simp [hn] at hok
    | ok b =>
      cases hp : parseToken b with
      | error e => rw [requestTokenRun] at hok ⊢; simp [hn, hp] at hok
      | ok v =>
        cases saveRes with
        | none =>
          rw [requestTokenRun] at hok ⊢
          simp [hn, hp] at hok ⊢
          simp [hok]
        | some e => rw [requestTokenRun] at hok ⊢; simp [hn, hp] at hok
  · intro hn hp
    simp [requestTokenRun, hn, hp]
  · intro s₁ s₂
    exact ⟨by simp, by simp⟩

/-- Witness for C4 at concrete inputs: a save failure after a successful
exchange yields the distinct `save` error, and a fully successful call
leaves the fresh token persisted. -/
theorem C4_requestToken_persists_witness :
    requestTokenRun "r0" (fun _ => Except.ok "B") (fun _ => Except.ok tok0)
        (some "disk full") none
      = (Except.error (TokenErr.save ("error saving token: " ++ "disk full" ++ "n")),
          none, ["r0"]) ∧
    (requestTokenRun "r0" (fun _ => Except.ok "B") (fun _ => Except.ok tok0)
        none none).2.1 = some tok0 :=
  ⟨(C4_requestToken_persists "r0" "B" "disk full" (fun _ => Except.ok "B")
      (fun _ => Except.ok tok0) tok0 none).2.1 rfl rfl,
   (C4_requestToken_persists "r0" "B" "disk full" (fun _ => Except.ok "B")
      (fun _ => Except.ok tok0) tok0 none).1 none tok0 rfl⟩

/-- Claim C5: `initToken` with no stored token and no seed fails with the
configuration error and performs no exchange (empty call trace); with no
stored token but a seed it exchanges exactly the seed; with a stored
token it unconditionally exchanges exactly the stored refresh token
(for every stored token, in particular whatever its `ExpiresIn`). -/
theorem C5_initToken_branches (e seed : String) (t : authToken)
    (envSeed : Option String) (net : String → Except String String)
    (parseToken : String → Except String authToken)
    (saveRes : Option String) (stored : Option authToken) :
    initTokenRun (Except.error e) none net parseToken saveRes stored
      = (Except.error
          (InitErr.config "no token saved in DB, and no REFRESH_TOKEN env var set"),
          stored, []) ∧
    (initTokenRun (Except.error e) (some seed) net parseToken saveRes stored).2.2
      = [seed] ∧
    (initTokenRun (Except.ok t) envSeed net parseToken saveRes stored).2.2
      = [t.RefreshToken] := by
  refine ⟨rfl, ?_, ?_⟩
  · simp [initTokenRun, requestTokenRun_calls]
  · simp [initTokenRun, requestTokenRun_calls]

/-- Claim C6: the all-accounts sync attempts accounts in order and stops
at the first failing account, returning its error without touching the
rest; and within one account the window loop stops at the first failing
window, leaving the remaining windows unattempted. -/
theorem C6_first_failure_aborts (sync : String → Except String Unit)
    (pre : List account) (bad : account) (post : List account) (e : String)
    (hpre : ∀ a ∈ pre, sync a.Number = Except.ok ())
    (hbad : sync bad.Number = Except.error e)
    (o : Nat → Except String Unit) (j n : Nat) (hj : j < n)
    (ho : ∀ k, k < j → o k = Except.ok ()) (hoj : o j = Except.error e) :
    refreshAllRun sync (pre ++ bad :: post)
      = (Except.error e, pre.map account.Number ++ [bad.Number]) ∧
    windowLoop o 0 n = (Except.error e, List.range' 0 (j + 1) 1) := by
  refine ⟨refreshAllRun_firstFail sync bad post e hbad pre hpre, ?_⟩
  exact windowLoop_firstFail o e j 0 n hj (fun k hk => by simpa using ho k hk)
    (by simpa using hoj)

/-- Witness for C6: accounts A, B, C where B fails — only A and B are
attempted; windows 0,1,2 where window 1 fails — only 0 and 1 are tried. -/
theorem C6_first_failure_aborts_witness :
    refreshAllRun (fun s => if s == "B" then Except.error "boom" else Except.ok ())
        ([accA] ++ accB :: [accC])
      = (Except.error "boom", ["A", "B"]) ∧
    windowLoop (fun i => if i == 1 then Except.error "boom" else Except.ok ()) 0 3
      = (Except.error "boom", List.range' 0 2 1) :=
  C6_first_failure_aborts
    (fun s => if s == "B" then Except.error "boom" else Except.ok ())
    [accA] accB [accC] "boom"
    (by intro a ha; rw [List.mem_singleton] at ha; subst ha; rfl) rfl
    (fun i => if i == 1 then Except.error "boom" else Except.ok ())
    1 3 (by omega) (fun k hk => by interval_cases k; rfl) rfl

/-- Claim C1: storing two activities with the same trade date but
different symbol/quantity must leave both retrievable.  The date-keyed
`saveActivities` of `main.go` violates this: the second `Put` lands on
the same `TradeDate` key and silently replaces the first, so
`loadActivities` afterwards returns only the second record.  The
sequence-keyed `saveActivities` of part_001 keeps both (with fresh IDs),
confirming the intended behaviour stated by the spec. -/
theorem C1_date_key_collision :
    actA.TradeDate = actB.TradeDate ∧ actA.Symbol ≠ actB.Symbol ∧
    loadActivitiesMain (saveActivitiesMain [actA, actB] emptyStoreMain "A1") "A1"
      = Except.ok [actB] ∧
    (saveActivitiesSeqBucket [actA, actB] (SeqBucket.mk 0 [])).entries.map Prod.snd
      = [withID actA 1, withID actB 2] := by
  refine ⟨rfl, by decide, ?_, ?_⟩
  · rfl
  · rfl

/-- The singleton-partition store indeed answers the partition. -/
lemma storeWithP1_apply (aid : String) (vals : List (Nat × Activity)) :
    storeWithP1 aid vals (bkName aid) = some vals :=
  Function.update_same _ _ _

/-- For a non-sentinel filter, the stored filter condition of
`loadActivities` collapses to the exact type comparison. -/
lemma filterCond_eq (f : String) (hf : f ≠ "all") (a : Activity) :
    (f == "all" || f == a.type_) = (a.type_ == f) := by
  rcases eq_or_ne a.type_ f with h | h
  · subst h
    simp [beq_eq_false_iff_ne.mpr hf]
  · have h1 : (f == "all") = false := beq_eq_false_iff_ne.mpr hf
    have h2 : (f == a.type_) = false := beq_eq_false_iff_ne.mpr (Ne.symm h)
    have h3 : (a.type_ == f) = false := beq_eq_false_iff_ne.mpr h
    rw [h1, h2, h3, Bool.false_or]

/-- Reading back through a `Put`: the written key answers the new value,
every other key is untouched. -/
lemma mapLookup_assocPut {κ α : Type} [DecidableEq κ] (s k : κ) (v : α)
    (m : List (κ × α)) :
    mapLookup s (assocPut k v m) = if s = k then some v else mapLookup s m := by
  induction m with
  | nil => simp [assocPut, mapLookup]
  | cons p rest ih =>
    obtain ⟨k₂, v₂⟩ := p
    by_cases h1 : k = k₂
    · subst h1
      by_cases h2 : s = k
      · simp [assocPut, mapLookup, h2]
      · simp [assocPut, mapLookup, h2]
    · by_cases h2 : s = k₂
      · subst h2
        have hsk : ¬ s = k := fun hEq => h1 hEq.symm
        simp [assocPut, mapLookup, h1, hsk]
      · simp [assocPut, mapLookup, h1, h2, ih]

/-- Folding trades into the symbol map makes the last record with a given
symbol win: looking up `s` finds the `symbolID` of the last activity
whose symbol is `s`, falling back to the initial map. -/
lemma mapLookup_symbolFold (l : List Activity) :
    ∀ (m₀ : List (String × Int)) (s : String),
      mapLookup s (l.foldl (fun m t => assocPut t.Symbol t.SymbolID m) m₀) =
        match l.reverse.find? (fun a => a.Symbol == s) with
        | some a => some a.SymbolID
        | none => mapLookup s m₀ := by
  induction l with
  | nil => intro m₀ s; simp [List.foldl]
  | cons a l ih =>
    intro m₀ s
    have hstep : (a :: l).foldl (fun m t => assocPut t.Symbol t.SymbolID m) m₀
        = l.foldl (fun m t => assocPut t.Symbol t.SymbolID m)
            (assocPut a.Symbol a.SymbolID m₀) := rfl
    rw [hstep, ih, List.reverse_cons, List.find?_append]
    cases h : l.reverse.find? (fun x => x.Symbol == s) with
    | some b => simp [h]
    | none =>
      simp only [h, Option.none_or]
      rw [mapLookup_assocPut]
      by_cases hs : a.Symbol = s
      · simp [List.find?, hs]
      · have hs2 : ¬ s = a.Symbol := fun hEq => hs hEq.symm
        have hb : (a.Symbol == s) = false := beq_eq_false_iff_ne.mpr hs
        simp [List.find?, hs2, hb]

/-- `saveAccounts` read back at any key: the last response record with
that account number wins, otherwise the bucket is untouched. -/
lemma saveAccounts_lookup (accs : List account) :
    ∀ (b : AccountsBucket) (k : String),
      saveAccounts accs b k =
        match accs.reverse.find? (fun a => a.Number == k) with
        | some a => some a
        | none => b k := by
  induction accs with
  | nil => intro b k; simp [saveAccounts, List.foldl]
  | cons a l ih =>
    intro b k
    have hstep : saveAccounts (a :: l) b
        = saveAccounts l (Function.update b a.Number (some a)) := rfl
    rw [hstep, ih, List.reverse_cons, List.find?_append]
    cases h : l.reverse.find? (fun x => x.Number == k) with
    | some c => simp [h]
    | none =>
      simp only [h, Option.none_or]
      by_cases hk : k = a.Number
      · subst hk; simp [List.find?, Function.update_same]
      · have hb : (a.Number == k) = false :=
          beq_eq_false_iff_ne.mpr (fun hEq => hk hEq.symm)
        simp [List.find?, hb, Function.update_noteq hk]

/-- Claim C7: with the partition present, a non-sentinel `typeFilter`
returns exactly the stored records whose `type` equals the filter
(case-sensitive string equality), and the "Trades" listing is a sublist
of the "all" listing. -/
theorem C7_type_filter (aid f : String) (vals : List (Nat × Activity))
    (hf : f ≠ "all") :
    loadActivitiesP1 (storeWithP1 aid vals) aid f
      = Except.ok ((vals.map Prod.snd).filter (fun a => a.type_ == f)) ∧
    ∃ lall ltr,
      loadActivitiesP1 (storeWithP1 aid vals) aid "all" = Except.ok lall ∧
      loadActivitiesP1 (storeWithP1 aid vals) aid "Trades" = Except.ok ltr ∧
      List.Sublist ltr lall := by
  refine ⟨?_, ⟨vals.map Prod.snd,
    (vals.map Prod.snd).filter (fun a => ("Trades" : String) == "all" || ("Trades" : String) == a.type_),
    ?_, ?_, ?_⟩⟩
  · simp only [loadActivitiesP1, storeWithP1_apply]
    rw [List.filter_congr (fun a _ => filterCond_eq f hf a)]
  · simp [loadActivitiesP1, storeWithP1_apply]
  · simp only [loadActivitiesP1, storeWithP1_apply]
  · exact List.filter_sublist _

/-- Witness for C7: concrete partition with two trades, filter "Trades". -/
theorem C7_type_filter_witness :
    loadActivitiesP1 (storeWithP1 "A1" [(1, actA), (2, actB)]) "A1" "Trades"
      = Except.ok (([(1, actA), (2, actB)].map Prod.snd).filter
          (fun a => a.type_ == "Trades")) ∧
    ∃ lall ltr,
      loadActivitiesP1 (storeWithP1 "A1" [(1, actA), (2, actB)]) "A1" "all"
        = Except.ok lall ∧
      loadActivitiesP1 (storeWithP1 "A1" [(1, actA), (2, actB)]) "A1" "Trades"
        = Except.ok ltr ∧
      List.Sublist ltr lall :=
  C7_type_filter "A1" "Trades" [(1, actA), (2, actB)] (by decide)

/-- Claim C8: `loadAllHistoricalSymbols` is a pure fold over the persisted
activities restricted to type "Trades": on a missing partition it
propagates the storage error, and on a present partition it returns a map
in which looking up any symbol `s` yields the `symbolID` of the last
stored Trades record carrying `s` (last-seen wins). -/
theorem C8_distinct_symbols (aid s : String) (vals : List (Nat × Activity)) :
    (∃ e, loadAllHistoricalSymbols (fun _ => none) aid = Except.error e) ∧
    ∃ m, loadAllHistoricalSymbols (storeWithP1 aid vals) aid = Except.ok m ∧
      mapLookup s m =
        match (((vals.map Prod.snd).filter (fun a => a.type_ == "Trades")).reverse.find?
            (fun a => a.Symbol == s)) with
        | some a => some a.SymbolID
        | none => none := by
  constructor
  · exact ⟨_, rfl⟩
  · refine ⟨((vals.map Prod.snd).filter
      (fun a => ("Trades" : String) == "all" || ("Trades" : String) == a.type_)).foldl
        (fun m t => assocPut t.Symbol t.SymbolID m) [], ?_, ?_⟩
    · simp only [loadAllHistoricalSymbols, loadActivitiesP1, storeWithP1_apply]
    · rw [List.filter_congr
        (fun a _ => filterCond_eq "Trades" (by decide) a)]
      rw [mapLookup_symbolFold]
      cases h : ((vals.map Prod.snd).filter (fun a => a.type_ == "Trades")).reverse.find?
          (fun a => a.Symbol == s) <;> simp [h, mapLookup]

/-- Claim C9: `saveAccounts` only overwrites the entries whose account
numbers appear in the response — any key absent from the response keeps
its previous value — and re-running it with the same response leaves the
ACCOUNTS partition identical. -/
theorem C9_saveAccounts_frame_idempotent (accs : List account)
    (b : AccountsBucket) (k : String) (hk : k ∉ accs.map account.Number) :
    saveAccounts accs b k = b k ∧
    saveAccounts accs (saveAccounts accs b) = saveAccounts accs b := by
  constructor
  · rw [saveAccounts_lookup]
    have hnone : accs.reverse.find? (fun a => a.Number == k) = none := by
      rw [List.find?_eq_none]
      intro a ha hpa
      exact hk (List.mem_map.mpr
        ⟨a, List.mem_reverse.mp ha, by simpa [beq_iff_eq] using hpa⟩)
    simp [hnone]
  · funext x
    rw [saveAccounts_lookup accs (saveAccounts accs b) x,
      saveAccounts_lookup accs b x]
    cases h : accs.reverse.find? (fun a => a.Number == x) with
    | some a => simp [h]
    | none => simp [h]

/-- Witness for C9: a bucket holding account C, response [A, B], key "C"
absent from the response. -/
theorem C9_saveAccounts_frame_idempotent_witness :
    saveAccounts [accA, accB] (fun n => if n == "C" then some accC else none) "C"
      = (fun n : String => if n == "C" then some accC else none) "C" ∧
    saveAccounts [accA, accB]
        (saveAccounts [accA, accB] (fun n => if n == "C" then some accC else none))
      = saveAccounts [accA, accB] (fun n => if n == "C" then some accC else none) :=
  C9_saveAccounts_frame_idempotent [accA, accB]
    (fun n => if n == "C" then some accC else none) "C" (by decide)

/-- Claim C10: on an account whose ACTIVITIES partition does not exist,
both `loadActivities` variants and `loadAllHistoricalSymbols` fail with
the storage error rather than returning an empty result; once the
partition exists (even empty), the same reads succeed with zero results. -/
theorem C10_missing_partition_errors (aid f : String) :
    loadActivitiesP1 (fun _ => none) aid f
      = Except.error
          ("could not load activities, couldn't get " ++ bkName aid ++ " bucket") ∧
    loadActivitiesP1 (storeWithP1 aid []) aid f = Except.ok [] ∧
    loadAllHistoricalSymbols (fun _ => none) aid
      = Except.error
          ("could not load activities, couldn't get " ++ bkName aid ++ " bucket") ∧
    loadAllHistoricalSymbols (storeWithP1 aid []) aid = Except.ok [] ∧
    loadActivitiesMain (fun _ => none) aid
      = Except.error
          ("could not load activities, couldn't get " ++ bkName aid ++ " bucket") := by
  refine ⟨rfl, ?_, rfl, ?_, rfl⟩
  · simp [loadActivitiesP1, storeWithP1_apply]
  · simp [loadAllHistoricalSymbols, loadActivitiesP1, storeWithP1_apply, List.foldl]

/-- `(365 * 2.25) / 30 = 27.375`, so `main.go` runs `27 + 1` windows. -/
lemma numRequestsMain_eq : numRequestsMain = 28 := by
  have h : (⌊((365 : ℚ) * (9 / 4)) / 30⌋ : Int) = 27 := by norm_num
  rw [numRequestsMain, h]
  rfl

/-- `(365 * 2.5) / 30 = 30.41w6`, so part_001 runs `30 + 1` windows. -/
lemma numRequestsP1_eq : numRequestsP1 = 31 := by
  have h : (⌊((365 : ℚ) * (5 / 2)) / 30⌋ : Int) = 30 := by norm_num
  rw [numRequestsP1, h]
  rfl

/-- The ceiling the spec quotes for the `main.go` horizon. -/
lemma ceilMain_eq : Int.toNat ⌈((365 : ℚ) * (9 / 4)) / 30⌉ = 28 := by
  have h : (⌈((365 : ℚ) * (9 / 4)) / 30⌉ : Int) = 28 := by
    rw [Int.ceil_eq_iff]
    norm_num
  rw [h]
  rfl

/-- The window list of a `main.go` run, with its length made explicit. -/
lemma mainWindows_eq : mainWindows = requestWindows 30 30 28 := by
  rw [mainWindows, numRequestsMain_eq]

/-- Membership in the generated window list. -/
lemma mem_requestWindows_iff (W step : ℚ) (n : Nat) (w : ℚ × ℚ) :
    w ∈ requestWindows W step n ↔ ∃ i : Nat, i < n ∧ w = windowOf W step i := by
  simp only [requestWindows, List.mem_map, List.mem_range]
  constructor
  · rintro ⟨i, hi, hw⟩
    exact ⟨i, hi, hw.symm⟩
  · rintro ⟨i, hi, hw⟩
    exact ⟨i, hi, hw.symm⟩

/-- Union of `n ≥ 1` abutting windows of width `W` stepping back by `W`:
exactly the interval `[-W*n, 0]`. -/
lemma coverInterval (W : ℚ) (hW : 0 < W) :
    ∀ n : Nat, 1 ≤ n → ∀ x : ℚ,
      (∃ i : Nat, i < n ∧ -W - W * i ≤ x ∧ x ≤ -(W * i)) ↔
        (-(W * n) ≤ x ∧ x ≤ 0) := by
  refine Nat.le_induction ?_ ?_
  · intro x
    constructor
    · rintro ⟨i, hi, h1, h2⟩
      have hi0 : i = 0 := by omega
      subst hi0
      push_cast at h1 h2
      exact ⟨by push_cast; linarith, by linarith⟩
    · rintro ⟨h1, h2⟩
      push_cast at h1
      exact ⟨0, by omega, by push_cast; linarith, by push_cast; linarith⟩
  · intro n hn ih x
    constructor
    · rintro ⟨i, hi, h1, h2⟩
      rcases Nat.lt_succ_iff_lt_or_eq.mp hi with hi2 | rfl
      · have hx := (ih x).mp ⟨i, hi2, h1, h2⟩
        refine ⟨?_, hx.2⟩
        have hx1 := hx.1
        push_cast at hx1 ⊢
        nlinarith [hx1]
      · have hn0 : (0 : ℚ) ≤ W * i := by positivity
        constructor
        · push_cast at h1 ⊢
          linarith
        · linarith
    · rintro ⟨h1, h2⟩
      by_cases hx : -(W * n) ≤ x
      · obtain ⟨i, hi, hA, hB⟩ := (ih x).mpr ⟨hx, h2⟩
        exact ⟨i, by omega, hA, hB⟩
      · push_neg at hx
        refine ⟨n, by omega, ?_, le_of_lt hx⟩
        push_cast at h1 ⊢
        linarith

/-- Claim C2, corrected: with every window request succeeding, the loop of
`requestActivities` attempts exactly `int(H/W) + 1 = ⌊H/W⌋ + 1` windows:
28 for the `main.go` constants (H = 365·2.25 days, W = 30) and 31 for the
part_001 constants (H = 365·2.5), not `⌈H/W⌉ + 1`. -/
theorem C2_request_count_corrected (o : Nat → Except String Unit)
    (h : ∀ i, o i = Except.ok ()) :
    (windowLoop o 0 numRequestsMain).2.length
      = Int.toNat ⌊((365 : ℚ) * (9 / 4)) / 30⌋ + 1 ∧
    (windowLoop o 0 numRequestsP1).2.length
      = Int.toNat ⌊((365 : ℚ) * (5 / 2)) / 30⌋ + 1 ∧
    (windowLoop o 0 numRequestsMain).2.length = 28 ∧
    (windowLoop o 0 numRequestsP1).2.length = 31 := by
  have h1 := windowLoop_allOk_len o h numRequestsMain 0
  have h2 := windowLoop_allOk_len o h numRequestsP1 0
  refine ⟨?_, ?_, ?_, ?_⟩
  · rw [h1]
    rfl
  · rw [h2]
    rfl
  · rw [h1, numRequestsMain_eq]
  · rw [h2, numRequestsP1_eq]

/-- Witness for the corrected C2 with all windows succeeding. -/
theorem C2_request_count_corrected_witness :
    (windowLoop (fun _ => Except.ok ()) 0 numRequestsMain).2.length = 28 ∧
    (windowLoop (fun _ => Except.ok ()) 0 numRequestsP1).2.length = 31 :=
  ⟨(C2_request_count_corrected (fun _ => Except.ok ()) (fun _ => rfl)).2.2.1,
   (C2_request_count_corrected (fun _ => Except.ok ()) (fun _ => rfl)).2.2.2⟩

/-- Counterexample to C2 as stated: at the `main.go` constants
(H = 365·2.25, W = 30) an all-successful run attempts 28 windows while
`⌈H/W⌉ + 1 = 29`. -/
theorem C2_request_count_counterexample :
    ¬ ((windowLoop (fun _ => Except.ok ()) 0 numRequestsMain).2.length
        = Int.toNat ⌈((365 : ℚ) * (9 / 4)) / 30⌉ + 1) := by
  have h1 := windowLoop_allOk_len (fun _ => Except.ok ())
    (fun _ => rfl) numRequestsMain 0
  rw [h1, numRequestsMain_eq, ceilMain_eq]
  omega

/-- Claim C3, corrected: the `main.go` windows (step = width = 30) abut —
each window's start equals the next window's end, no dates are skipped —
and their union is exactly `[now - 840 days, now]`, i.e.
`[now - W·(⌊H/W⌋+1), now]`; the part_001 windows (step 31, width 30)
leave an uncovered 1-day gap between each window's start and the next
window's end. -/
theorem C3_windows_coverage_corrected :
    (∀ x : ℚ, (∃ w ∈ mainWindows, w.1 ≤ x ∧ x ≤ w.2) ↔ (-840 ≤ x ∧ x ≤ 0)) ∧
    (∀ i : Nat, i + 1 < numRequestsMain →
      (windowOf 30 30 i).1 = (windowOf 30 30 (i + 1)).2) ∧
    (∀ i : Nat, i + 1 < numRequestsP1 →
      (windowOf 30 31 i).1 = (windowOf 30 31 (i + 1)).2 + 1) := by
  refine ⟨?_, ?_, ?_⟩
  · intro x
    have hcov := coverInterval 30 (by norm_num) 28 (by omega) x
    constructor
    · rintro ⟨w, hw, h1, h2⟩
      rw [mainWindows_eq, mem_requestWindows_iff] at hw
      obtain ⟨i, hi, rfl⟩ := hw
      simp only [windowOf] at h1 h2
      have h3 := hcov.mp ⟨i, hi, h1, h2⟩
      have h4 := h3.1
      push_cast at h4
      exact ⟨by linarith, h3.2⟩
    · rintro ⟨h1, h2⟩
      have h3 : -(30 * ((28 : Nat) : ℚ)) ≤ x ∧ x ≤ 0 :=
        ⟨by push_cast; linarith, h2⟩
      obtain ⟨i, hi, hA, hB⟩ := hcov.mpr h3
      refine ⟨windowOf 30 30 i, ?_, ?_, ?_⟩
      · rw [mainWindows_eq, mem_requestWindows_iff]
        exact ⟨i, hi, rfl⟩
      · simpa [windowOf] using hA
      · simpa [windowOf] using hB
  · intro i _
    simp only [windowOf]
    push_cast
    ring
  · intro i _
    simp only [windowOf]
    push_cast
    ring

/-- Witness for the corrected C3: abutment and gap at the first window
pair, and a covered sample point. -/
theorem C3_windows_coverage_corrected_witness :
    (windowOf 30 30 0).1 = (windowOf 30 30 1).2 ∧
    (windowOf 30 31 0).1 = (windowOf 30 31 1).2 + 1 ∧
    (∃ w ∈ mainWindows, w.1 ≤ (-5 : ℚ) ∧ (-5 : ℚ) ≤ w.2) :=
  ⟨C3_windows_coverage_corrected.2.1 0 (by rw [numRequestsMain_eq]; omega),
   C3_windows_coverage_corrected.2.2 0 (by rw [numRequestsP1_eq]; omega),
   (C3_windows_coverage_corrected.1 (-5)).mpr (by norm_num)⟩

/-- Counterexample to C3 as stated: the instant 845 days before now lies
in `[now - H - W, now] = [now - 851.25, now]` but in none of the
windows a `main.go` run requests (their union stops at `now - 840`). -/
theorem C3_windows_coverage_counterexample :
    (-(((365 : ℚ) * (9 / 4)) + 30) ≤ -845 ∧ ((-845 : ℚ) ≤ 0)) ∧
    ∀ w ∈ mainWindows, ¬ (w.1 ≤ (-845 : ℚ) ∧ (-845 : ℚ) ≤ w.2) := by
  constructor
  · constructor
    · norm_num
    · norm_num
  · intro w hw
    rw [mainWindows_eq, mem_requestWindows_iff] at hw
    obtain ⟨i, hi, rfl⟩ := hw
    rintro ⟨h1, h2⟩
    simp only [windowOf] at h1 h2
    have hq : (27 : ℚ) < (i : ℚ) := by linarith
    have hn : (27 : Nat) < i := by exact_mod_cast hq
    omega

end Invtrak
